import Mathlib

/-!
# basic_go_server: the handlers of `main.go` and the library calls they make

The program is one file, `main.go`: two handlers (`formHandler`, `helloHandler`) and
`main`, which registers them and a file server on the default `ServeMux`.

Everything the handlers do goes through a few calls into Go's standard library
(`fmt.Fprintf`, `http.Error`, `(*Request).ParseForm`, `(*Request).FormValue`,
`http.Handle`, `http.FileServer`).  Those calls are embedded here as pure functions that
follow the library's own code; what is left out of the embedding is said where it is left
out.

Conventions
* A Go `string` is a sequence of bytes.  It is embedded as a `String` (and as `List Char`
  inside the scanners), one `Char` standing for one byte.
* A response is what the handler writes to its `http.ResponseWriter`: the status code and
  the body bytes, as `httptest.ResponseRecorder` records them.  Header fields are not part
  of the embedding.
-/

namespace BasicGoServer

/-! ## `http.ResponseWriter` -/

/-- The state of a response writer: whether the status line has been written, the status
code, and the body bytes written so far. -/
structure ResponseWriter where
  wroteHeader : Bool
  Code : Nat
  Body : String
deriving DecidableEq, Repr

namespace http

def StatusOK : Nat := 200
def StatusMovedPermanently : Nat := 301
def StatusForbidden : Nat := 403
def StatusNotFound : Nat := 404
def StatusInternalServerError : Nat := 500

end http

/-- The writer a handler is handed for a new request: nothing written, and status 200
unless the handler says otherwise. -/
def ResponseWriter.fresh : ResponseWriter :=
  { wroteHeader := false, Code := http.StatusOK, Body := "" }

/-- `WriteHeader(code)`: sets the status code; a second call changes nothing. -/
def ResponseWriter.WriteHeader (w : ResponseWriter) (code : Nat) : ResponseWriter :=
  if w.wroteHeader then w else { w with wroteHeader := true, Code := code }

/-- `Write(b)`: the first write sends status 200 when no status was set; the bytes are
appended to the body. -/
def ResponseWriter.Write (w : ResponseWriter) (b : String) : ResponseWriter :=
  let w1 := if w.wroteHeader then w else w.WriteHeader http.StatusOK
  { w1 with Body := w1.Body ++ b }

/-! ## Package `fmt` -/

namespace fmt

/-- An operand of a formatting call.  The program passes strings and one `error`; an
`error` operand is carried as the text its `Error()` method returns, which is what the
verbs print. -/
inductive Arg where
  | str (s : String)
  | error (msg : String)
deriving DecidableEq, Repr

/-- What `%s` and `%v` print for an operand. -/
def Arg.text : Arg → List Char
  | .str s => s.data
  | .error msg => msg.data

/-- The scanning loop of `doPrintf` over the format string, for the directives the program
uses: text up to a `%` is copied, `%%` prints a percent sign, `%s` and `%v` print the next
operand.  Any other directive, a missing operand, or an operand left over gives `none`
(the library prints a `%!…` diagnostic there, which is not embedded). -/
def doPrintf : List Char → List Arg → Option (List Char)
  | [], [] => some []
  | [], _ :: _ => none
  | c :: rest, a =>
    if c ≠ '%' then (doPrintf rest a).map (c :: ·)
    else
      match rest, a with
      | [], _ => none
      | v :: rest2, a =>
        if v = '%' then (doPrintf rest2 a).map ('%' :: ·)
        else if v = 's' ∨ v = 'v' then
          match a with
          | [] => none
          | arg :: a2 => (doPrintf rest2 a2).map (arg.text ++ ·)
        else none

/-- `fmt.Sprintf(format, a...)`. -/
def Sprintf (format : String) (a : List Arg) : Option String :=
  (doPrintf format.data a).map String.mk

/-- `fmt.Fprintf(w, format, a...)`: formats and writes the result to `w` in one `Write`. -/
def Fprintf (w : ResponseWriter) (format : String) (a : List Arg) : Option ResponseWriter :=
  (Sprintf format a).map w.Write

/-- `fmt.Fprintln(w, s)` for one string operand: the string and a newline. -/
def Fprintln (w : ResponseWriter) (s : String) : ResponseWriter :=
  w.Write (s ++ "\n")

end fmt

/-- `http.Error(w, error, code)`: writes the status code, then the message with
`fmt.Fprintln`.  (The header fields it sets are outside the embedding.) -/
def http.Error (w : ResponseWriter) (error : String) (code : Nat) : ResponseWriter :=
  fmt.Fprintln (w.WriteHeader code) error

/-! ## Errors returned by the form parser -/

/-- The errors `mime.ParseMediaType` returns. -/
inductive MimeError where
  | noMediaType
  | expectedSlash
  | expectedToken
  | unexpectedContent
  | invalidMediaParameter
  | duplicateParameterName
deriving DecidableEq, Repr

/-- The text of a `mime.ParseMediaType` error. -/
def MimeError.Error : MimeError → String
  | .noMediaType => "mime: no media type"
  | .expectedSlash => "mime: expected slash after first token"
  | .expectedToken => "mime: expected token after slash"
  | .unexpectedContent => "mime: unexpected content after media subtype"
  | .invalidMediaParameter => "mime: invalid media parameter"
  | .duplicateParameterName => "mime: duplicate parameter name"

/-- The errors `(*Request).ParseForm` can return for a request whose body has been read:
those of `url.ParseQuery`, of `parsePostForm`, and of `mime.ParseMediaType`. -/
inductive GoError where
  | EscapeError (s : String)
  | invalidSemicolon
  | missingFormBody
  | postTooLarge
  | mime (e : MimeError)
deriving DecidableEq, Repr

/-- The `Error()` method.  `url.EscapeError` renders itself with `strconv.Quote`, which
depends on Unicode tables and is taken as the parameter `Quote`. -/
def GoError.Error (Quote : String → String) : GoError → String
  | .EscapeError s => "invalid URL escape " ++ Quote s
  | .invalidSemicolon => "invalid semicolon separator in query"
  | .missingFormBody => "missing form body"
  | .postTooLarge => "http: POST too large"
  | .mime e => e.Error

/-! ## Package `strings` -/

namespace strings

/-- `strings.Cut(s, sep)` for a one-byte separator: the text before the first `sep`, the
text after it, and whether `sep` was found. -/
def Cut (sep : Char) : List Char → List Char × List Char × Bool
  | [] => ([], [], false)
  | c :: rest =>
    if c = sep then ([], rest, true)
    else
      let r := Cut sep rest
      (c :: r.1, r.2.1, r.2.2)

end strings

/-! ## Package `net/url` -/

namespace url

/-- The type `url.Values`, a map from a key to the list of its values, kept as an
association list with one entry per key. -/
abbrev Values := List (String × List String)

/-- The map read `v[key]`: the values of `key`, none when the key is absent. -/
def Values.lookup (m : Values) (key : String) : List String :=
  match m with
  | [] => []
  | (k, vs) :: rest => if k = key then vs else Values.lookup rest key

/-- The map update `m[key] = append(m[key], vs...)`. -/
def Values.append (m : Values) (key : String) (vs : List String) : Values :=
  match m with
  | [] => [(key, vs)]
  | (k, old) :: rest =>
    if k = key then (k, old ++ vs) :: rest else (k, old) :: Values.append rest key vs

def ishex (c : Char) : Bool :=
  ('0' ≤ c ∧ c ≤ '9') ∨ ('a' ≤ c ∧ c ≤ 'f') ∨ ('A' ≤ c ∧ c ≤ 'F')

def unhex (c : Char) : Nat :=
  if '0' ≤ c ∧ c ≤ '9' then c.toNat - '0'.toNat
  else if 'a' ≤ c ∧ c ≤ 'f' then c.toNat - 'a'.toNat + 10
  else if 'A' ≤ c ∧ c ≤ 'F' then c.toNat - 'A'.toNat + 10
  else 0

/-- First loop of `unescape`: every `%` must be followed by two hex digits.  Returns the
text the `EscapeError` carries (at most three bytes from the bad `%` on), or `none` when
all escapes are well formed. -/
def checkEscapes : List Char → Option (List Char)
  | [] => none
  | c :: rest =>
    if c = '%' then
      match rest with
      | h :: l :: rest2 =>
        if ishex h ∧ ishex l then checkEscapes rest2 else some ((c :: rest).take 3)
      | _ => some ((c :: rest).take 3)
    else checkEscapes rest

/-- Second loop of `unescape` in mode `encodeQueryComponent`: `%XY` becomes the byte
`unhex(X)<<4 | unhex(Y)`, `+` becomes a space, any other byte is copied.  (The early
return of `unescape` for a string with no `%` and no `+` gives the same string as this
loop.)  The first loop has excluded a `%` without two bytes after it. -/
def decodeEscapes : List Char → List Char
  | [] => []
  | c :: rest =>
    if c = '%' then
      match rest with
      | h :: l :: rest2 => Char.ofNat (unhex h * 16 + unhex l) :: decodeEscapes rest2
      | _ => []
    else if c = '+' then ' ' :: decodeEscapes rest
    else c :: decodeEscapes rest

/-- `url.QueryUnescape(s)`. -/
def QueryUnescape (s : List Char) : Except GoError (List Char) :=
  match checkEscapes s with
  | some bad => .error (.EscapeError (String.mk bad))
  | none => .ok (decodeEscapes s)

/-- Second loop of `unescape` in mode `encodePathSegment`: as `decodeEscapes`, but a `+`
is an ordinary byte. -/
def decodePathEscapes : List Char → List Char
  | [] => []
  | c :: rest =>
    if c = '%' then
      match rest with
      | h :: l :: rest2 => Char.ofNat (unhex h * 16 + unhex l) :: decodePathEscapes rest2
      | _ => []
    else c :: decodePathEscapes rest

/-- `url.PathUnescape(s)`. -/
def PathUnescape (s : List Char) : Except GoError (List Char) :=
  match checkEscapes s with
  | some bad => .error (.EscapeError (String.mk bad))
  | none => .ok (decodePathEscapes s)

/-- One pass through the body of the loop of `parseQuery`, for the piece `key` cut off
before the next `&`; the state is the map and the error to return. -/
def parsePair (key : List Char) (st : Values × Option GoError) : Values × Option GoError :=
  if ';' ∈ key then (st.1, some .invalidSemicolon)
  else if key = [] then st
  else
    let kv := strings.Cut '=' key
    match QueryUnescape kv.1 with
    | .error err1 => (st.1, if st.2 = none then some err1 else st.2)
    | .ok k =>
      match QueryUnescape kv.2.1 with
      | .error err1 => (st.1, if st.2 = none then some err1 else st.2)
      | .ok value => (Values.append st.1 (String.mk k) [String.mk value], st.2)

/-- The loop `for query != ""` of `parseQuery`; each turn cuts the query at the next `&`,
so the rest gets shorter and `fuel` at least the length of the query is never used up
(`parseQueryLoop_fuel`). -/
def parseQueryLoop : Nat → List Char → Values × Option GoError → Values × Option GoError
  | 0, _, st => st
  | fuel + 1, query, st =>
    if query = [] then st
    else
      let c := strings.Cut '&' query
      parseQueryLoop fuel c.2.1 (parsePair c.1 st)

/-- `url.ParseQuery(query)`: the values parsed, and the error if any. -/
def ParseQuery (query : String) : Values × Option GoError :=
  parseQueryLoop query.data.length query.data ([], none)

end url

/-! ## `http.Request` -/

/-- The part of `url.URL` the program and the router read.  `EscapedPath` is what the
method `EscapedPath()` returns: an escaped form of `Path` (`RawPath` when that is a valid
encoding of `Path`, the default escaping of `Path` otherwise); it always unescapes to
`Path`. -/
structure URL where
  Path : String
  EscapedPath : String
  RawQuery : String
deriving DecidableEq, Repr

/-- A request as a handler receives it.
* `RequestURI` is the target of the request line, as the client sent it.
* `Host` stands for the host name the router works with (the port taken off).
* `ContentType` is what `mime.ParseMediaType` returns for the `Content-Type` header (a
  missing header counting as `application/octet-stream`): the media type and the error.
* `Body` is the request body as the server has read it, `none` for a nil `Body`;
  failures of the transport while reading are outside the embedding.
* `Form` and `PostForm` are `none` until the form is parsed. -/
structure Request where
  Method : String
  URL : URL
  RequestURI : String
  Host : String
  ContentType : String × Option MimeError
  Body : Option String
  Form : Option url.Values
  PostForm : Option url.Values
deriving DecidableEq, Repr

/-- The limit `10 << 20` that `parsePostForm` puts on the size of a form body. -/
def maxFormSize : Nat := 10485760

/-- Helper `parsePostForm` of the request type: the values of a url-encoded body.  A body
of another media type (`multipart/form-data` included) is not read here. -/
def parsePostForm (r : Request) : Option url.Values × Option GoError :=
  match r.Body with
  | none => (none, some .missingFormBody)
  | some b =>
    let ct := r.ContentType.1
    let err := r.ContentType.2.map GoError.mime
    if ct = "application/x-www-form-urlencoded" then
      if b.length > maxFormSize then (none, some .postTooLarge)
      else
        let p := url.ParseQuery b
        (some p.1, if err = none then p.2 else err)
    else (none, err)

/-- `url.Values` helper `copyValues(dst, src)`. -/
def copyValues (dst src : url.Values) : url.Values :=
  src.foldl (fun d kv => url.Values.append d kv.1 kv.2) dst

/-- `(*Request).ParseForm()`: fills `PostForm` from the body of a POST, PUT or PATCH
request and `Form` from the body values followed by the values of the URL query; returns
the updated request and the error. -/
def Request.ParseForm (r : Request) : Request × Option GoError :=
  let s1 : Option url.Values × Option GoError :=
    match r.PostForm with
    | some pf => (some pf, none)
    | none =>
      if r.Method = "POST" ∨ r.Method = "PUT" ∨ r.Method = "PATCH" then parsePostForm r
      else (none, none)
  let postForm : url.Values := s1.1.getD []
  match r.Form with
  | some _ => ({ r with PostForm := some postForm }, s1.2)
  | none =>
    let q := url.ParseQuery r.URL.RawQuery
    let err := if s1.2 = none then q.2 else s1.2
    let form := if postForm.length > 0 then copyValues (copyValues [] postForm) q.1 else q.1
    ({ r with PostForm := some postForm, Form := some form }, err)

/-- `(*Request).FormValue(key)`: the first value of `key` in `Form`, or the empty string.
When `Form` is still nil the library parses the form first (multipart bodies included,
which are not embedded); `formHandler` calls it after `ParseForm`, where `Form` is set. -/
def Request.FormValue (r : Request) (key : String) : String :=
  let form := match r.Form with
    | some f => f
    | none => (r.ParseForm.1.Form).getD []
  match url.Values.lookup form key with
  | [] => ""
  | v :: _ => v

/-! ## The handlers of `main.go` -/

/-- `formHandler` (main.go, lines 15-29). -/
def formHandler (Quote : String → String) (w : ResponseWriter) (r : Request) :
    Option ResponseWriter :=
  let p := r.ParseForm
  match p.2 with
  | some err => fmt.Fprintf w "ParseForm() err: %v" [.error (err.Error Quote)]
  | none =>
    (fmt.Fprintf w "POST request successful\n" []).bind fun w1 =>
    let name := p.1.FormValue "name"
    let address := p.1.FormValue "address"
    (fmt.Fprintf w1 "Name = %s\n" [.str name]).bind fun w2 =>
    fmt.Fprintf w2 "Address = %s\n" [.str address]

/-- `helloHandler` (main.go, lines 33-48). -/
def helloHandler (w : ResponseWriter) (r : Request) : Option ResponseWriter :=
  if r.URL.Path ≠ "/hello" then
    some (http.Error w "404 not found." http.StatusNotFound)
  else if r.Method ≠ "GET" then
    some (http.Error w "Method is not supported." http.StatusNotFound)
  else
    fmt.Fprintf w "Hello!" []

/-! ## Package `path` -/

namespace path

/-- Where the loop of `Clean` stands: at the start of a path element, inside a real
element that is being copied, or on the second dot of a `..` element. -/
inductive Mode where
  | boundary
  | inElem
  | skip
deriving DecidableEq, Repr

/-- The inner loop of the `..` case, `for out.w > dotdot && out.index(out.w) != '/'`,
from write index `w` down: the index it stops at. -/
def backtrack (out : List Char) (dotdot : Nat) : Nat → Nat
  | 0 => 0
  | w + 1 =>
    if w + 1 > dotdot ∧ out.getD (w + 1) '/' ≠ '/' then backtrack out dotdot w else w + 1

/-- The main loop of `Clean` over the unread part of the path; `out` is the buffer written
so far (its length is the write index `out.w`). -/
def cleanLoop (rooted : Bool) : List Char → Mode → List Char → Nat → List Char
  | [], _, out, _ => out
  | _ :: rest, .skip, out, dotdot => cleanLoop rooted rest .boundary out dotdot
  | c :: rest, .inElem, out, dotdot =>
    if c = '/' then cleanLoop rooted rest .boundary out dotdot
    else cleanLoop rooted rest .inElem (out ++ [c]) dotdot
  | c :: rest, .boundary, out, dotdot =>
    if c = '/' then
      -- empty path element
      cleanLoop rooted rest .boundary out dotdot
    else if c = '.' ∧ (rest = [] ∨ rest.head? = some '/') then
      -- . element
      cleanLoop rooted rest .boundary out dotdot
    else if c = '.' ∧ rest.head? = some '.' ∧ (rest.tail = [] ∨ rest.tail.head? = some '/') then
      -- .. element: remove to last /
      if out.length > dotdot then
        cleanLoop rooted rest .skip (out.take (backtrack out dotdot (out.length - 1))) dotdot
      else if ¬ rooted then
        let out1 := (if out.length > 0 then out ++ ['/'] else out) ++ ['.', '.']
        cleanLoop rooted rest .skip out1 out1.length
      else cleanLoop rooted rest .skip out dotdot
    else
      -- real path element: add slash if needed, then copy the element
      let out1 := if (rooted ∧ out.length ≠ 1) ∨ (¬ rooted ∧ out.length ≠ 0) then out ++ ['/']
                  else out
      cleanLoop rooted rest .inElem (out1 ++ [c]) dotdot

/-- `path.Clean(path)`. -/
def Clean (p : List Char) : List Char :=
  match p with
  | [] => ['.']
  | c :: rest =>
    let out :=
      if c = '/' then cleanLoop true rest .boundary ['/'] 1
      else cleanLoop false p .boundary [] 0
    if out.length = 0 then ['.'] else out

/-- `path.Base(path)`: the last element of the path. -/
def Base (p : List Char) : List Char :=
  if p = [] then ['.']
  else
    let p1 := (p.reverse.dropWhile (· = '/')).reverse
    let p2 := (p1.reverse.takeWhile (· ≠ '/')).reverse
    if p2 = [] then ['/'] else p2

end path

/-! ## `http.ServeMux` -/

/-- `cleanPath(p)` of net/http: the canonical path for `p`, without `.` and `..` elements
and repeated slashes, keeping a trailing slash. -/
def cleanPath (p : String) : String :=
  if p = "" then "/"
  else
    let p1 : List Char := if p.data.head? ≠ some '/' then '/' :: p.data else p.data
    let np := path.Clean p1
    if p1.getLast? = some '/' ∧ np ≠ ['/'] then
      if p1.length = np.length + 1 ∧ np.isPrefixOf p1 then String.mk p1
      else String.mk (np ++ ['/'])
    else String.mk np

/-- The handlers the router can hand a request to: the three that `main` registers, and
the two the router makes itself (`http.RedirectHandler` for the URL with the given path
and query, and `http.NotFoundHandler()`).  The status code of the redirect differs
between releases of the library and is not part of the embedding. -/
inductive Handler where
  | fileServer
  | formHandler
  | helloHandler
  | RedirectHandler (path rawQuery : String)
  | NotFoundHandler
deriving DecidableEq, Repr

/-- A segment of a pattern: a literal `s`, or a wildcard (`multi` for the one that a
trailing slash stands for). -/
structure segment where
  s : String
  wild : Bool
  multi : Bool
deriving DecidableEq, Repr

/-- A parsed pattern. -/
structure pattern where
  str : String
  method : String
  host : String
  segments : List segment
deriving DecidableEq, Repr

/-- The last segment of a pattern; every parsed pattern has one. -/
def pattern.lastSegment (p : pattern) : segment :=
  p.segments.getLast?.getD { s := "", wild := false, multi := false }

/-- Helper `pathUnescape` of the router: `url.PathUnescape`, or the text itself when it
does not unescape. -/
def pathUnescape (s : List Char) : List Char :=
  match url.PathUnescape s with
  | .ok u => u
  | .error _ => s

/-- The segment loop of `parsePattern` over the path after its first slash, `cur` being
the segment read so far: a literal for each text between slashes, and the multi wildcard
for a slash at the end.  A segment with `{` (a wildcard by name) is outside the embedding
and gives `none`. -/
def parseSegments (cur : List Char) : List Char → Option (List segment)
  | [] =>
    if '{' ∈ cur then none
    else some [{ s := String.mk (pathUnescape cur), wild := false, multi := false }]
  | c :: rest =>
    if c = '/' then
      if '{' ∈ cur then none
      else
        let seg : segment := { s := String.mk (pathUnescape cur), wild := false, multi := false }
        if rest = [] then some [seg, { s := "", wild := true, multi := true }]
        else (parseSegments [] rest).map (seg :: ·)
    else parseSegments (cur ++ [c]) rest

/-- `parsePattern(s)` for a pattern without a method: the host is the text before the
first slash, the segments follow.  `none` where the library returns an error, and for a
pattern with a method (a blank or tab in it) or a named wildcard, which are outside the
embedding. -/
def parsePattern (s : String) : Option pattern :=
  if s = "" then none
  else if ' ' ∈ s.data ∨ '\t' ∈ s.data then none
  else
    let c := strings.Cut '/' s.data
    if ¬ c.2.2 then none
    else if '{' ∈ c.1 then none
    else
      let segs :=
        if c.2.1 = [] then some [{ s := "", wild := true, multi := true }]
        else parseSegments [] c.2.1
      segs.map fun sg => { str := s, method := "", host := String.mk c.1, segments := sg }

/-- A node of the routing tree: the pattern and handler of a leaf, the children by key,
the child for a multi wildcard, and the child for the empty key. -/
inductive routingNode where
  | mk (pattern : Option pattern) (handler : Option Handler)
      (children : List (String × routingNode)) (multiChild : Option routingNode)
      (emptyChild : Option routingNode)

namespace routingNode

def empty : routingNode := .mk none none [] none none

def pattern : routingNode → Option pattern
  | .mk p _ _ _ _ => p

def handler : routingNode → Option Handler
  | .mk _ h _ _ _ => h

def children : routingNode → List (String × routingNode)
  | .mk _ _ ch _ _ => ch

def multiChild : routingNode → Option routingNode
  | .mk _ _ _ mc _ => mc

def emptyChild : routingNode → Option routingNode
  | .mk _ _ _ _ ec => ec

/-- `findChild(key)`. -/
def findChild (n : routingNode) (key : String) : Option routingNode :=
  if key = "" then n.emptyChild
  else (n.children.find? (fun kv => kv.1 = key)).map (fun kv => kv.2)

/-- `set(p, h)`: makes the node a leaf. -/
def set (n : routingNode) (p : BasicGoServer.pattern) (h : Handler) : routingNode :=
  .mk (some p) (some h) n.children n.multiChild n.emptyChild

/-- `addChild(key)` followed by the change `f` of that child: the child for `key`, made
new when there is none, is replaced by its image under `f`. -/
def withChild (n : routingNode) (key : String) (f : routingNode → routingNode) :
    routingNode :=
  if key = "" then
    .mk n.pattern n.handler n.children n.multiChild (some (f (n.emptyChild.getD empty)))
  else if n.children.any (fun kv => kv.1 = key) then
    .mk n.pattern n.handler
      (n.children.map fun kv => if kv.1 = key then (kv.1, f kv.2) else kv)
      n.multiChild n.emptyChild
  else
    .mk n.pattern n.handler (n.children ++ [(key, f empty)]) n.multiChild n.emptyChild

/-- `addSegments(segs, p, h)`. -/
def addSegments : List segment → BasicGoServer.pattern → Handler → routingNode → routingNode
  | [], p, h, n => n.set p h
  | seg :: segs, p, h, n =>
    if seg.multi then
      .mk n.pattern n.handler n.children (some (empty.set p h)) n.emptyChild
    else if seg.wild then n.withChild "" (addSegments segs p h)
    else n.withChild seg.s (addSegments segs p h)

/-- `addPattern(p, h)`: first level of the tree is the host, second the method, the
remaining levels are the path. -/
def addPattern (root : routingNode) (p : BasicGoServer.pattern) (h : Handler) : routingNode :=
  root.withChild p.host fun n => n.withChild p.method (addSegments p.segments p h)

end routingNode

/-- `firstSegment(path)`: the first segment of the path, unescaped, and the rest. -/
def firstSegment (path : List Char) : String × List Char :=
  if path = ['/'] then ("/", [])
  else
    let p := path.drop 1
    (String.mk (pathUnescape (p.takeWhile (· ≠ '/'))), p.dropWhile (· ≠ '/'))

/-- `(*routingNode).matchPath(path, matches)`: the leaf that matches the path below the
node, literal children first, then the single wildcard, then the multi wildcard.  Each
call passes on a shorter path, so `fuel` above the length of the path is never used up
(`matchPath_fuel`). -/
def matchPath : Nat → Option routingNode → List Char → Option routingNode
  | _, none, _ => none
  | 0, some _, _ => none
  | fuel + 1, some n, path =>
    if path = [] then
      if n.pattern.isNone then none else some n
    else
      let sr := firstSegment path
      match matchPath fuel (n.findChild sr.1) sr.2 with
      | some l => some l
      | none =>
        match (if sr.1 ≠ "/" then matchPath fuel n.emptyChild sr.2 else none) with
        | some l => some l
        | none => n.multiChild

/-- `(*routingNode).matchMethodAndPath(method, path)`. -/
def matchMethodAndPath (n : Option routingNode) (method : String) (path : List Char) :
    Option routingNode :=
  match n with
  | none => none
  | some n =>
    match matchPath (path.length + 1) (n.findChild method) path with
    | some l => some l
    | none =>
      match (if method = "HEAD" then matchPath (path.length + 1) (n.findChild "GET") path
             else none) with
      | some l => some l
      | none => matchPath (path.length + 1) n.emptyChild path

/-- `(*routingNode).match(host, method, path)` on the root of the tree. -/
def routingNode.match (root : routingNode) (host method : String) (path : List Char) :
    Option routingNode :=
  match (if host ≠ "" then matchMethodAndPath (root.findChild host) method path else none) with
  | some l => some l
  | none => matchMethodAndPath root.emptyChild method path

/-- `exactMatch(n, path)`. -/
def exactMatch (n : Option routingNode) (path : List Char) : Bool :=
  match n with
  | none => false
  | some n =>
    match n.pattern with
    | none => false
    | some p =>
      if ¬ p.lastSegment.multi then true
      else if path.length > 0 ∧ path.getLast? ≠ some '/' then false
      else p.segments.length = path.count '/'

/-- The router, as `net/http` has it since Go 1.22: the routing tree and the patterns
registered (the index of the library, which only shortens the search for conflicts, is
left out). -/
structure ServeMux where
  tree : routingNode
  patterns : List pattern

/-- `(*ServeMux).matchOrRedirect(host, method, path, u)`: the node that matches, or, when
`u` is given and the path matches only with a slash added, the path and query to redirect
to. -/
def ServeMux.matchOrRedirect (mux : ServeMux) (host method path : String) (u : Option URL) :
    Option routingNode × Option (String × String) :=
  let n := mux.tree.match host method path.data
  match u with
  | none => (n, none)
  | some u =>
    if ¬ exactMatch n path.data ∧ path.data.getLast? ≠ some '/' then
      let path2 := path ++ "/"
      if exactMatch (mux.tree.match host method path2.data) path2.data then
        (none, some (cleanPath u.Path ++ "/", u.RawQuery))
      else (n, none)
    else (n, none)

/-- `(*ServeMux).findHandler(r)`: the handler for the request.  No pattern of the
embedding names a method, so a request without a match gets `NotFoundHandler`. -/
def ServeMux.findHandler (mux : ServeMux) (r : Request) : Handler :=
  let escapedPath := r.URL.EscapedPath
  if r.Method = "CONNECT" then
    -- CONNECT requests are not canonicalized.
    match (mux.matchOrRedirect r.Host r.Method escapedPath (some r.URL)).2 with
    | some u => .RedirectHandler u.1 u.2
    | none =>
      match (mux.matchOrRedirect r.Host r.Method escapedPath none).1 with
      | some n => n.handler.getD .NotFoundHandler
      | none => .NotFoundHandler
  else
    let path := cleanPath escapedPath
    let m := mux.matchOrRedirect r.Host r.Method path (some r.URL)
    match m.2 with
    | some u => .RedirectHandler u.1 u.2
    | none =>
      if path ≠ escapedPath then
        -- Redirect to cleaned path.
        .RedirectHandler path r.URL.RawQuery
      else
        match m.1 with
        | some n => n.handler.getD .NotFoundHandler
        | none => .NotFoundHandler

/-- What `(*ServeMux).ServeHTTP` does with a request: it answers `400 Bad Request`
itself, or calls a handler. -/
inductive Routed where
  | badRequest
  | serve (h : Handler)
deriving DecidableEq, Repr

/-- `(*ServeMux).ServeHTTP(w, r)`, up to the call of the handler. -/
def ServeMux.ServeHTTP (mux : ServeMux) (r : Request) : Routed :=
  if r.RequestURI = "*" then .badRequest
  else .serve (mux.findHandler r)

/-- `(*ServeMux).Handle(pattern, handler)`; `none` where the library panics: a pattern
that does not parse, or one in conflict with a registered pattern.  Two patterns of the
embedding (no method, no named wildcard) conflict exactly when they have the same host
and the same segments. -/
def ServeMux.Handle (mux : ServeMux) (patstr : String) (handler : Handler) :
    Option ServeMux :=
  if patstr = "" then none
  else
    match parsePattern patstr with
    | none => none
    | some pat =>
      if mux.patterns.any (fun p2 => p2.host = pat.host ∧ p2.segments = pat.segments) then none
      else some { tree := mux.tree.addPattern pat handler, patterns := mux.patterns ++ [pat] }

/-- The registrations of `main` (main.go, lines 55-61) on the empty default router. -/
def main.registrations : Option ServeMux :=
  ((ServeMux.Handle ⟨.empty, []⟩ "/" .fileServer).bind
    fun mux => mux.Handle "/form" .formHandler).bind
    fun mux => mux.Handle "/hello" .helloHandler

/-- What the server built by `main` does with the request `r`: the router's `ServeHTTP`
on the registrations of `main`. -/
def main.dispatch (r : Request) : Option Routed :=
  main.registrations.map fun mux => mux.ServeHTTP r

/-- The leaf of the pattern `/` in the router of `main`. -/
def main.rootLeaf : routingNode :=
  .mk (some { str := "/", method := "", host := "",
              segments := [{ s := "", wild := true, multi := true }] })
    (some .fileServer) [] none none

/-- The leaf of the pattern `/form` in the router of `main`. -/
def main.formLeaf : routingNode :=
  .mk (some { str := "/form", method := "", host := "",
              segments := [{ s := "form", wild := false, multi := false }] })
    (some .formHandler) [] none none

/-- The leaf of the pattern `/hello` in the router of `main`. -/
def main.helloLeaf : routingNode :=
  .mk (some { str := "/hello", method := "", host := "",
              segments := [{ s := "hello", wild := false, multi := false }] })
    (some .helloHandler) [] none none

/-- The node of the router of `main` where the path begins. -/
def main.pathNode : routingNode :=
  .mk none none [("form", main.formLeaf), ("hello", main.helloLeaf)] (some main.rootLeaf) none

/-- The router that the three registrations of `main` build (`registrations_eq`). -/
def main.mux : ServeMux :=
  { tree := .mk none none [] none (some (.mk none none [] none (some main.pathNode)))
    patterns := [
      { str := "/", method := "", host := "",
        segments := [{ s := "", wild := true, multi := true }] },
      { str := "/form", method := "", host := "",
        segments := [{ s := "form", wild := false, multi := false }] },
      { str := "/hello", method := "", host := "",
        segments := [{ s := "hello", wild := false, multi := false }] }] }

/-! ## `http.FileServer` -/

/-- Why `Open` failed, as far as `toHTTPError` tells the cases apart. -/
inductive OpenError where
  | notExist
  | permission
  | other
deriving DecidableEq, Repr

/-- What `Open` found: a regular file with its bytes, or a directory with the page
`dirList` renders for it. -/
inductive Node where
  | file (content : String)
  | dir (listing : String)
deriving DecidableEq, Repr

/-- An `http.FileSystem`: `Open` by slash-separated name.  For `http.Dir("./static")` the
name `"/" + p` opens what lies at the relative path `p` under `./static`. -/
abbrev FileSystem := String → Except OpenError Node

def Node.IsDir : Node → Bool
  | .file _ => false
  | .dir _ => true

/-- `toHTTPError(err)`: the message and the status for a failed `Open`. -/
def toHTTPError : OpenError → String × Nat
  | .notExist => ("404 page not found", http.StatusNotFound)
  | .permission => ("403 Forbidden", http.StatusForbidden)
  | .other => ("500 Internal Server Error", http.StatusInternalServerError)

/-- `localRedirect(w, r, newPath)`: status 301 and no body (the `Location` header is
outside the embedding). -/
def localRedirect (w : ResponseWriter) : ResponseWriter :=
  w.WriteHeader http.StatusMovedPermanently

/-- `serveContent` for a request without `Range` and conditional header fields, which the
embedding of a request does not have: status 200 and, unless the method is HEAD, the
content. -/
def serveContent (w : ResponseWriter) (r : Request) (content : String) : ResponseWriter :=
  let w1 := w.WriteHeader http.StatusOK
  if r.Method ≠ "HEAD" then w1.Write content else w1

/-- `dirList`: writes the listing page. -/
def dirList (w : ResponseWriter) (listing : String) : ResponseWriter :=
  w.Write listing

/-- `serveFile(w, r, fs, name, redirect)`; a failure of `Stat` on an open file is outside
the embedding. -/
def serveFile (w : ResponseWriter) (r : Request) (fs : FileSystem) (name : String)
    (redirect : Bool) : ResponseWriter :=
  let indexPage := "/index.html"
  -- redirect .../index.html to .../
  if indexPage.data.isSuffixOf r.URL.Path.data then localRedirect w
  else
    match fs name with
    | .error err => http.Error w (toHTTPError err).1 (toHTTPError err).2
    | .ok d =>
      let u := r.URL.Path.data
      -- redirect to canonical path: / at end of directory url
      if redirect ∧ d.IsDir ∧ u.getLast? ≠ some '/' then localRedirect w
      else if redirect ∧ ¬ d.IsDir ∧ u.getLast? = some '/' then
        if path.Base u = ['/'] ∨ path.Base u = ['.'] then
          http.Error w "http: attempting to traverse a non-directory"
            http.StatusInternalServerError
        else localRedirect w
      else
        match d with
        | .file content => serveContent w r content
        | .dir listing =>
          -- redirect if the directory name doesn't end in a slash
          if u.getLast? ≠ some '/' then localRedirect w
          else
            -- use contents of index.html for directory, if present
            let name1 := if name.data.getLast? = some '/' then String.mk name.data.dropLast
                         else name
            match fs (name1 ++ indexPage) with
            | .ok (.file content) => serveContent w r content
            | .ok (.dir listing1) => dirList w listing1
            | .error _ => dirList w listing

/-- The handler `http.FileServer(root)`: `(*fileHandler).ServeHTTP`. -/
def fileServer (fs : FileSystem) (w : ResponseWriter) (r : Request) : ResponseWriter :=
  let upath := if r.URL.Path.data.head? ≠ some '/' then "/" ++ r.URL.Path else r.URL.Path
  let r1 := { r with URL := { r.URL with Path := upath } }
  serveFile w r1 fs (String.mk (path.Clean upath.data)) true

/-! ## Reading a response body by lines -/

/-- The lines of a text: the pieces that a newline ends, and the piece after the last
newline when it is not empty. -/
def linesOf : List Char → List (List Char)
  | [] => []
  | c :: rest =>
    if c = '\n' then [] :: linesOf rest
    else
      match linesOf rest with
      | [] => [[c]]
      | l :: ls => (c :: l) :: ls

/-- The lines of a response body. -/
def lines (s : String) : List String :=
  (linesOf s.data).map String.mk

/-! ## Concrete requests and files, for the examples -/

/-- A request as the server hands it to a handler, the form not parsed yet
(`httptest.NewRequest`, with the query, the media type and the body spelled out), for a
path that is sent as it stands, without escapes. -/
def NewRequest (method path rawQuery contentType body : String) : Request :=
  { Method := method
    URL := { Path := path, EscapedPath := path, RawQuery := rawQuery }
    RequestURI := if rawQuery = "" then path else path ++ "?" ++ rawQuery
    Host := "example.com"
    ContentType := (contentType, none), Body := some body, Form := none, PostForm := none }

/-- The rendering `strconv.Quote` gives a text of printable ASCII bytes without quote and
backslash: the text between double quotes. -/
def quoteAscii (s : String) : String :=
  "\"" ++ s ++ "\""

/-- A request whose form has already been parsed, to the single values `n` for `name` and
`a` for `address`. -/
def parsedRequest (n a : String) : Request :=
  { NewRequest "POST" "/form" "" "application/x-www-form-urlencoded" "" with
    Form := some [("name", [n]), ("address", [a])]
    PostForm := some [("name", [n]), ("address", [a])] }

/-- A static root with the files `index.html` and `a.txt`. -/
def staticFiles : FileSystem := fun name =>
  if name = "/" then .ok (.dir "<pre>\n</pre>\n")
  else if name = "/index.html" then .ok (.file "<h1>Static</h1>")
  else if name = "/a.txt" then .ok (.file "some text\n")
  else .error .notExist

/-! # Theorems -/

/-! ### Formatting and writing -/

theorem Fprintf_nil_hello (w : ResponseWriter) :
    fmt.Fprintf w "Hello!" [] = some (w.Write "Hello!") := rfl

theorem Fprintf_success (w : ResponseWriter) :
    fmt.Fprintf w "POST request successful\n" [] = some (w.Write "POST request successful\n") := rfl

theorem Fprintf_err (w : ResponseWriter) (msg : String) :
    fmt.Fprintf w "ParseForm() err: %v" [.error msg]
      = some (w.Write ("ParseForm() err: " ++ msg)) := by
  have h : fmt.doPrintf "ParseForm() err: %v".data [.error msg]
      = some ("ParseForm() err: ".data ++ msg.data) := by
    simp [fmt.doPrintf, fmt.Arg.text]
  simp only [fmt.Fprintf, fmt.Sprintf, h, Option.map_some']
  rfl

theorem Fprintf_name (w : ResponseWriter) (n : String) :
    fmt.Fprintf w "Name = %s\n" [.str n] = some (w.Write ("Name = " ++ n ++ "\n")) := rfl

theorem Fprintf_address (w : ResponseWriter) (n : String) :
    fmt.Fprintf w "Address = %s\n" [.str n] = some (w.Write ("Address = " ++ n ++ "\n")) := rfl


theorem Write_fresh (b : String) :
    ResponseWriter.fresh.Write b = { wroteHeader := true, Code := 200, Body := b } := by
  simp [ResponseWriter.Write, ResponseWriter.WriteHeader, ResponseWriter.fresh, http.StatusOK]

theorem Write_wrote (c : Nat) (a b : String) :
    ResponseWriter.Write { wroteHeader := true, Code := c, Body := a } b
      = { wroteHeader := true, Code := c, Body := a ++ b } := by
  simp [ResponseWriter.Write]

theorem Error_fresh (msg : String) (code : Nat) :
    http.Error .fresh msg code = { wroteHeader := true, Code := code, Body := msg ++ "\n" } := by
  simp [http.Error, fmt.Fprintln, ResponseWriter.Write, ResponseWriter.WriteHeader,
    ResponseWriter.fresh]

theorem append_ne_empty (a b : String) (h : a ≠ "") : a ++ b ≠ "" := by
  intro hab
  apply h
  have h1 := congrArg String.length hab
  simp at h1
  exact String.ext (by simpa using List.length_eq_zero.mp h1.1)

theorem GoError.Error_ne_empty (Quote : String → String) (e : GoError) : e.Error Quote ≠ "" := by
  cases e with
  | EscapeError s => exact append_ne_empty _ _ (by decide)
  | invalidSemicolon => simp only [GoError.Error]; decide
  | missingFormBody => simp only [GoError.Error]; decide
  | postTooLarge => simp only [GoError.Error]; decide
  | mime m => cases m <;> simp only [GoError.Error, MimeError.Error] <;> decide

theorem formHandler_ok (Quote : String → String) (r : Request) (h : r.ParseForm.2 = none) :
    formHandler Quote .fresh r = some
      { wroteHeader := true, Code := 200,
        Body := "POST request successful\n"
          ++ ("Name = " ++ r.ParseForm.1.FormValue "name" ++ "\n")
          ++ ("Address = " ++ r.ParseForm.1.FormValue "address" ++ "\n") } := by
  simp [formHandler, h, Fprintf_success, Fprintf_name, Fprintf_address, Write_fresh, Write_wrote]

theorem formHandler_err (Quote : String → String) (r : Request) (e : GoError)
    (h : r.ParseForm.2 = some e) :
    formHandler Quote .fresh r = some
      { wroteHeader := true, Code := 200, Body := "ParseForm() err: " ++ e.Error Quote } := by
  simp [formHandler, h, Fprintf_err, Write_fresh]

theorem helloHandler_get (r : Request) (hp : r.URL.Path = "/hello") (hm : r.Method = "GET") :
    helloHandler .fresh r = some { wroteHeader := true, Code := 200, Body := "Hello!" } := by
  simp [helloHandler, hp, hm, Fprintf_nil_hello, Write_fresh]

theorem helloHandler_method (r : Request) (hp : r.URL.Path = "/hello") (hm : r.Method ≠ "GET") :
    helloHandler .fresh r = some { wroteHeader := true, Code := 404, Body := "Method is not supported.\n" } := by
  simp [helloHandler, hp, hm, Error_fresh, http.StatusNotFound]

theorem helloHandler_path (r : Request) (hp : r.URL.Path ≠ "/hello") :
    helloHandler .fresh r = some { wroteHeader := true, Code := 404, Body := "404 not found.\n" } := by
  simp [helloHandler, hp, Error_fresh, http.StatusNotFound]

/-! ### Cutting and parsing a query -/

theorem Cut_length (sep : Char) (q : List Char) (hq : q ≠ []) :
    (strings.Cut sep q).2.1.length < q.length := by
  induction q with
  | nil => exact absurd rfl hq
  | cons c q ih =>
    by_cases hc : c = sep
    · simp [strings.Cut, hc]
    · by_cases hq2 : q = []
      · simp [strings.Cut, hc, hq2]
      · have := ih hq2
        simp [strings.Cut, hc]
        omega

theorem parseQueryLoop_nil (n : Nat) (st : url.Values × Option GoError) :
    url.parseQueryLoop n [] st = st := by
  cases n <;> simp [url.parseQueryLoop]

theorem parseQueryLoop_fuel_irrel :
    ∀ (n m : Nat) (q : List Char) (st : url.Values × Option GoError),
      q.length ≤ n → q.length ≤ m → url.parseQueryLoop n q st = url.parseQueryLoop m q st := by
  intro n
  induction n with
  | zero =>
    intro m q st hn _
    have hq : q = [] := List.length_eq_zero.mp (Nat.le_zero.mp hn)
    subst hq
    simp [parseQueryLoop_nil]
  | succ n ih =>
    intro m q st hn hm
    cases m with
    | zero =>
      have hq : q = [] := List.length_eq_zero.mp (Nat.le_zero.mp hm)
      subst hq
      simp [parseQueryLoop_nil]
    | succ m =>
      by_cases hq : q = []
      · simp [url.parseQueryLoop, hq]
      · have hlt := Cut_length '&' q hq
        simp only [url.parseQueryLoop, hq, if_false]
        exact ih m _ _ (by omega) (by omega)

/-- Fuel: the loop of `parseQuery` run with any fuel that is at least the length of the
query gives the result `ParseQuery` computes; the loop has then stopped on the empty
rest, not on the fuel. -/
theorem parseQueryLoop_fuel (n : Nat) (q : String) (h : q.data.length ≤ n) :
    url.parseQueryLoop n q.data ([], none) = url.ParseQuery q :=
  parseQueryLoop_fuel_irrel n q.data.length q.data _ h (Nat.le_refl _)

theorem FormValue_of_Form (r : Request) (f : url.Values) (key v : String) (vs : List String)
    (hf : r.Form = some f) (hv : url.Values.lookup f key = v :: vs) :
    r.FormValue key = v := by
  simp [Request.FormValue, hf, hv]

theorem lookup_absent (f : url.Values) (key : String) (hv : ∀ vs, (key, vs) ∉ f) :
    url.Values.lookup f key = [] := by
  induction f with
  | nil => simp [url.Values.lookup]
  | cons e f ih =>
    obtain ⟨k0, old⟩ := e
    have hk : k0 ≠ key := fun e1 => hv old (by simp [e1])
    have := ih (fun vs hmem => hv vs (by simp [hmem]))
    simp [url.Values.lookup, hk, this]

theorem FormValue_absent (r : Request) (f : url.Values) (key : String)
    (hf : r.Form = some f) (hv : ∀ vs, (key, vs) ∉ f) :
    r.FormValue key = "" := by
  simp [Request.FormValue, hf, lookup_absent f key hv]

theorem linesOf_length (l : List Char) :
    (linesOf (l ++ ['\n'])).length = l.count '\n' + 1 := by
  induction l with
  | nil => simp [linesOf]
  | cons c l ih =>
    by_cases hc : c = '\n'
    · subst hc
      simp [linesOf, ih]
    · have hne : linesOf (l ++ ['\n']) ≠ [] := by
        intro e
        rw [e] at ih
        simp at ih
      obtain ⟨x, xs, hx⟩ := List.exists_cons_of_ne_nil hne
      rw [hx] at ih
      rw [List.cons_append, linesOf, if_neg hc, hx, List.count_cons_of_ne (Ne.symm hc)]
      simpa using ih

theorem lines_success_gt (n a : String) (h : '\n' ∈ n.data ∨ '\n' ∈ a.data) :
    3 < (lines ("POST request successful\n" ++ ("Name = " ++ n ++ "\n")
          ++ ("Address = " ++ a ++ "\n"))).length := by
  have e : ("POST request successful\n" ++ ("Name = " ++ n ++ "\n")
        ++ ("Address = " ++ a ++ "\n")).data
      = ("POST request successful\n".data ++ ("Name = ".data ++ n.data ++ ['\n'])
          ++ ("Address = ".data ++ a.data)) ++ ['\n'] := by
    simp [String.data_append]
  have hc : 1 ≤ n.data.count '\n' + a.data.count '\n' := by
    rcases h with h | h
    · have := List.count_pos_iff.mpr h
      omega
    · have := List.count_pos_iff.mpr h
      omega
  have c1 : "POST request successful\n".data.count '\n' = 1 := by decide
  have c2 : "Name = ".data.count '\n' = 0 := by decide
  have c3 : "Address = ".data.count '\n' = 0 := by decide
  simp only [lines, List.length_map, e, linesOf_length, List.count_append, c1, c2, c3]
  simp
  omega

/-! ### The router -/

theorem registrations_eq : main.registrations = some main.mux := by
  rfl

theorem dispatch_eq (r : Request) : main.dispatch r = some (main.mux.ServeHTTP r) := by
  simp [main.dispatch, registrations_eq]

theorem firstSegment_length (path : List Char) (h : path ≠ []) :
    (firstSegment path).2.length < path.length := by
  unfold firstSegment
  split
  · rename_i h1
    simp [h1]
  · cases path with
    | nil => exact absurd rfl h
    | cons c s =>
      have := (List.dropWhile_sublist (fun x : Char => decide (x ≠ '/')) (l := s)).length_le
      simp only [List.drop_succ_cons, List.drop_zero, List.length_cons]
      omega

theorem matchPath_fuel_irrel :
    ∀ (f1 f2 : Nat) (n : Option routingNode) (path : List Char),
      path.length < f1 → path.length < f2 → matchPath f1 n path = matchPath f2 n path := by
  intro f1
  induction f1 with
  | zero => intro f2 n path h1 _; omega
  | succ f1 ih =>
    intro f2 n path h1 h2
    cases f2 with
    | zero => omega
    | succ f2 =>
      cases n with
      | none => simp [matchPath]
      | some n =>
        by_cases hp : path = []
        · simp [matchPath, hp]
        · have hlt := firstSegment_length path hp
          simp only [matchPath, hp, if_false]
          rw [ih f2 (n.findChild (firstSegment path).1) _ (by omega) (by omega),
            ih f2 n.emptyChild _ (by omega) (by omega)]

/-- Fuel: `matchPath` run with any fuel above the length of the path gives the result it
gives with the fuel the router passes; the search has then ended on the path, not on the
fuel. -/
theorem matchPath_fuel (fuel : Nat) (n : Option routingNode) (path : List Char)
    (h : path.length < fuel) :
    matchPath fuel n path = matchPath (path.length + 1) n path :=
  matchPath_fuel_irrel fuel (path.length + 1) n path h (Nat.lt_succ_self _)

theorem matchPath_none (fuel : Nat) (path : List Char) : matchPath fuel none path = none := by
  cases fuel <;> simp [matchPath]

theorem matchPath_leaf (fuel : Nat) (p : pattern) (h : Handler) (path : List Char) :
    matchPath (fuel + 1) (some (.mk (some p) (some h) [] none none)) path
      = if path = [] then some (.mk (some p) (some h) [] none none) else none := by
  by_cases hp : path = []
  · simp [matchPath, hp, routingNode.pattern]
  · simp [matchPath, hp, routingNode.findChild, routingNode.children, routingNode.emptyChild,
      routingNode.multiChild, matchPath_none]

/-- The leaf the router of `main` finds for a path that is not empty. -/
theorem matchPath_pathNode (k : Nat) (c : Char) (s : List Char) :
    matchPath (k + 2) (some main.pathNode) (c :: s)
      = some (if (firstSegment (c :: s)).1 = "form" ∧ (firstSegment (c :: s)).2 = []
                then main.formLeaf
              else if (firstSegment (c :: s)).1 = "hello" ∧ (firstSegment (c :: s)).2 = []
                then main.helloLeaf
              else main.rootLeaf) := by
  have hne : c :: s ≠ [] := by simp
  simp only [matchPath, hne, if_false]
  generalize firstSegment (c :: s) = sr
  obtain ⟨seg, rest⟩ := sr
  by_cases hf : seg = "form"
  · subst hf
    have e : main.pathNode.findChild "form" = some main.formLeaf := rfl
    rw [e]
    simp only [main.formLeaf, matchPath_leaf]
    by_cases hr : rest = []
    · simp [hr]
    · simp [hr, matchPath_none, main.pathNode, routingNode.emptyChild, routingNode.multiChild,
        main.formLeaf]
  · by_cases hh : seg = "hello"
    · subst hh
      have e : main.pathNode.findChild "hello" = some main.helloLeaf := rfl
      rw [e]
      simp only [main.helloLeaf, matchPath_leaf]
      by_cases hr : rest = []
      · simp [hr]
      · simp [hr, matchPath_none, main.pathNode, routingNode.emptyChild,
          routingNode.multiChild, main.helloLeaf]
    · have e : main.pathNode.findChild seg = none := by
        have e1 : ¬ "form" = seg := fun e => hf e.symm
        have e2 : ¬ "hello" = seg := fun e => hh e.symm
        by_cases h0 : seg = ""
        · subst h0; rfl
        · simp [routingNode.findChild, h0, main.pathNode, routingNode.children, List.find?,
            e1, e2]
      rw [e]
      simp [hf, hh, matchPath_none, main.pathNode, routingNode.emptyChild,
        routingNode.multiChild]

theorem match_main (host method : String) (c : Char) (s : List Char) :
    main.mux.tree.match host method (c :: s)
      = some (if (firstSegment (c :: s)).1 = "form" ∧ (firstSegment (c :: s)).2 = []
                then main.formLeaf
              else if (firstSegment (c :: s)).1 = "hello" ∧ (firstSegment (c :: s)).2 = []
                then main.helloLeaf
              else main.rootLeaf) := by
  have hroot : ∀ key, key ≠ "" → main.mux.tree.findChild key = none := by
    intro key hk
    simp [routingNode.findChild, hk, main.mux, routingNode.children]
  have hempty : main.mux.tree.emptyChild
      = some (.mk none none [] none (some main.pathNode)) := rfl
  have hmeth : ∀ key, key ≠ "" →
      (routingNode.mk none none [] none (some main.pathNode)).findChild key = none := by
    intro key hk
    simp [routingNode.findChild, hk, routingNode.children]
  have hmeth0 : (routingNode.mk none none [] none (some main.pathNode)).findChild ""
      = some main.pathNode := rfl
  have hmeth1 : (routingNode.mk none none [] none (some main.pathNode)).emptyChild
      = some main.pathNode := rfl
  have hlen : (c :: s).length + 1 = s.length + 2 := by simp
  have key : matchMethodAndPath (some (.mk none none [] none (some main.pathNode))) method
      (c :: s) = matchPath (s.length + 2) (some main.pathNode) (c :: s) := by
    unfold matchMethodAndPath
    simp only [hlen]
    by_cases hm : method = ""
    · subst hm
      rw [hmeth0, matchPath_pathNode]
    · rw [hmeth method hm, matchPath_none, hmeth1]
      have hg : ("GET" : String) ≠ "" := by decide
      rw [hmeth "GET" hg, matchPath_none]
      simp
  unfold routingNode.match
  rw [hempty, key, matchPath_pathNode]
  by_cases hh : host = ""
  · simp [hh]
  · simp [hh, hroot host hh, matchMethodAndPath]

theorem match_main_nil (host method : String) : main.mux.tree.match host method [] = none := by
  have hroot : ∀ key, key ≠ "" → main.mux.tree.findChild key = none := by
    intro key hk
    simp [routingNode.findChild, hk, main.mux, routingNode.children]
  have hempty : main.mux.tree.emptyChild
      = some (.mk none none [] none (some main.pathNode)) := rfl
  have hmeth : ∀ key, key ≠ "" →
      (routingNode.mk none none [] none (some main.pathNode)).findChild key = none := by
    intro key hk
    simp [routingNode.findChild, hk, routingNode.children]
  have hmeth0 : (routingNode.mk none none [] none (some main.pathNode)).findChild ""
      = some main.pathNode := rfl
  have hmeth1 : (routingNode.mk none none [] none (some main.pathNode)).emptyChild
      = some main.pathNode := rfl
  have hp : matchPath 1 (some main.pathNode) [] = none := rfl
  have key : matchMethodAndPath (some (.mk none none [] none (some main.pathNode))) method
      [] = none := by
    unfold matchMethodAndPath
    dsimp only
    by_cases hm : method = ""
    · subst hm
      rw [hmeth0, hmeth1]
      simp [hp]
    · rw [hmeth method hm, matchPath_none, hmeth1]
      have hg : ("GET" : String) ≠ "" := by decide
      rw [hmeth "GET" hg, matchPath_none]
      simp [hp]
  unfold routingNode.match
  rw [hempty, key]
  by_cases hh : host = ""
  · simp [hh]
  · simp [hh, hroot host hh, matchMethodAndPath]

theorem dropWhile_append_slash (s : List Char) :
    (s ++ ['/']).dropWhile (· ≠ '/') ≠ [] := by
  induction s with
  | nil => simp
  | cons c s ih =>
    by_cases hc : c = '/'
    · simp [hc]
    · simp [List.dropWhile_cons, hc, ih]

theorem exactMatch_rootLeaf_slash (s : List Char) :
    exactMatch (some main.rootLeaf) ('/' :: (s ++ ['/'])) = false := by
  have hl : ('/' :: (s ++ ['/'])).getLast? = some '/' := by
    rw [← List.cons_append, List.getLast?_append]
    rfl
  simp [exactMatch, main.rootLeaf, routingNode.pattern, pattern.lastSegment, hl]

/-- For a path that begins with a slash the router of `main` never redirects to the path
with a slash added: its only pattern that ends in a slash is `/`. -/
theorem matchOrRedirect_main (host method path : String) (u : Option URL) (s : List Char)
    (hd : path.data = '/' :: s) :
    main.mux.matchOrRedirect host method path u
      = (main.mux.tree.match host method path.data, none) := by
  unfold ServeMux.matchOrRedirect
  cases u with
  | none => rfl
  | some u =>
    have h2 : (path ++ "/").data = '/' :: (s ++ ['/']) := by
      simp [String.data_append, hd]
    have hfs : (firstSegment ('/' :: (s ++ ['/']))).2 ≠ [] := by
      have hne : ('/' :: (s ++ ['/'])) ≠ ['/'] := by simp
      simp only [firstSegment, hne, if_false, List.drop_succ_cons, List.drop_zero]
      exact dropWhile_append_slash s
    have hn2 : main.mux.tree.match host method ('/' :: (s ++ ['/'])) = some main.rootLeaf := by
      rw [match_main]
      simp [hfs]
    simp only [h2, hn2, exactMatch_rootLeaf_slash]
    simp

theorem leaf_handler (sr : String × List Char) :
    (if sr.1 = "form" ∧ sr.2 = [] then main.formLeaf
      else if sr.1 = "hello" ∧ sr.2 = [] then main.helloLeaf
      else main.rootLeaf).handler.getD .NotFoundHandler
      = if sr.1 = "form" ∧ sr.2 = [] then .formHandler
        else if sr.1 = "hello" ∧ sr.2 = [] then .helloHandler
        else .fileServer := by
  split
  · rfl
  · split <;> rfl

/-- The handler the router of `main` finds for a request whose escaped path is in cleaned
form (or, for a CONNECT request, begins with a slash). -/
theorem findHandler_main (r : Request) (s : List Char)
    (hd : r.URL.EscapedPath.data = '/' :: s)
    (hc : r.Method ≠ "CONNECT" → cleanPath r.URL.EscapedPath = r.URL.EscapedPath) :
    main.mux.findHandler r
      = if (firstSegment ('/' :: s)).1 = "form" ∧ (firstSegment ('/' :: s)).2 = []
          then .formHandler
        else if (firstSegment ('/' :: s)).1 = "hello" ∧ (firstSegment ('/' :: s)).2 = []
          then .helloHandler
        else .fileServer := by
  unfold ServeMux.findHandler
  by_cases hm : r.Method = "CONNECT"
  · simp only [hm, if_true, matchOrRedirect_main _ _ _ _ s hd, hd, match_main]
    exact leaf_handler _
  · simp only [hm, if_false, hc hm, ne_eq, not_true_eq_false,
      matchOrRedirect_main _ _ _ _ s hd, hd, match_main]
    exact leaf_handler _

/-! ### Escaped path and path -/

theorem ishex_slash : url.ishex '/' = false := by decide

theorem checkEscapes_cons (c : Char) (t : List Char) (hp : c ≠ '%') :
    url.checkEscapes (c :: t) = url.checkEscapes t := by
  rcases t with _ | ⟨h, _ | ⟨l, r⟩⟩ <;> simp [url.checkEscapes, hp]

theorem decodePathEscapes_cons (c : Char) (t : List Char) (hp : c ≠ '%') :
    url.decodePathEscapes (c :: t) = c :: url.decodePathEscapes t := by
  rcases t with _ | ⟨h, _ | ⟨l, r⟩⟩ <;> simp [url.decodePathEscapes, hp]

theorem checkEscapes_pct (h l : Char) (t : List Char)
    (hx : url.ishex h = true ∧ url.ishex l = true) :
    url.checkEscapes ('%' :: h :: l :: t) = url.checkEscapes t := by
  rw [url.checkEscapes]
  simp [hx]

theorem decodePathEscapes_pct (h l : Char) (t : List Char) :
    url.decodePathEscapes ('%' :: h :: l :: t)
      = Char.ofNat (url.unhex h * 16 + url.unhex l) :: url.decodePathEscapes t := by
  rw [url.decodePathEscapes]
  simp

theorem takeWhile_cons_ne (c : Char) (t : List Char) (hc : c ≠ '/') :
    (c :: t).takeWhile (· ≠ '/') = c :: t.takeWhile (· ≠ '/') := by
  rw [List.takeWhile_cons]
  simp [hc]

theorem dropWhile_cons_ne (c : Char) (t : List Char) (hc : c ≠ '/') :
    (c :: t).dropWhile (· ≠ '/') = t.dropWhile (· ≠ '/') := by
  rw [List.dropWhile_cons]
  simp [hc]

/-- An escape never spans a slash, so a text that unescapes does so piece by piece: the
part before the first slash on its own, then the rest. -/
theorem unescape_split :
    ∀ (n : Nat) (s : List Char), s.length ≤ n → url.checkEscapes s = none →
      url.checkEscapes (s.takeWhile (· ≠ '/')) = none
        ∧ url.decodePathEscapes s
            = url.decodePathEscapes (s.takeWhile (· ≠ '/'))
                ++ url.decodePathEscapes (s.dropWhile (· ≠ '/')) := by
  intro n
  induction n using Nat.strong_induction_on with
  | _ n ih =>
    intro s hn hs
    cases s with
    | nil => exact ⟨rfl, rfl⟩
    | cons c t =>
      by_cases hc : c = '/'
      · subst hc
        exact ⟨rfl, rfl⟩
      · by_cases hp : c = '%'
        · subst hp
          cases t with
          | nil => simp [url.checkEscapes] at hs
          | cons h t1 =>
            cases t1 with
            | nil => simp [url.checkEscapes] at hs
            | cons l t2 =>
              by_cases hx : url.ishex h = true ∧ url.ishex l = true
              · have hh : h ≠ '/' := by
                  intro e; rw [e, ishex_slash] at hx; exact absurd hx.1 (by decide)
                have hl : l ≠ '/' := by
                  intro e; rw [e, ishex_slash] at hx; exact absurd hx.2 (by decide)
                have hs2 : url.checkEscapes t2 = none := by
                  rwa [checkEscapes_pct h l t2 hx] at hs
                have hlen : t2.length ≤ n - 3 := by
                  simp only [List.length_cons] at hn
                  omega
                have hlt : n - 3 < n := by
                  simp only [List.length_cons] at hn
                  omega
                obtain ⟨i1, i2⟩ := ih (n - 3) hlt t2 hlen hs2
                rw [takeWhile_cons_ne _ _ hc, takeWhile_cons_ne _ _ hh, takeWhile_cons_ne _ _ hl,
                  dropWhile_cons_ne _ _ hc, dropWhile_cons_ne _ _ hh, dropWhile_cons_ne _ _ hl,
                  checkEscapes_pct h l _ hx, decodePathEscapes_pct, decodePathEscapes_pct,
                  List.cons_append]
                exact ⟨i1, by rw [i2]⟩
              · rw [url.checkEscapes] at hs
                simp [hx] at hs
        · have hs2 : url.checkEscapes t = none := by
            rwa [checkEscapes_cons c t hp] at hs
          have hlen : t.length ≤ n - 1 := by
            simp only [List.length_cons] at hn
            omega
          have hlt : n - 1 < n := by
            simp only [List.length_cons] at hn
            omega
          obtain ⟨i1, i2⟩ := ih (n - 1) hlt t hlen hs2
          rw [takeWhile_cons_ne _ _ hc, dropWhile_cons_ne _ _ hc, checkEscapes_cons _ _ hp,
            decodePathEscapes_cons _ _ hp, decodePathEscapes_cons _ _ hp, List.cons_append]
          exact ⟨i1, by rw [i2]⟩

theorem dropWhile_slash (s : List Char) :
    s.dropWhile (· ≠ '/') = [] ∨ ∃ t, s.dropWhile (· ≠ '/') = '/' :: t := by
  induction s with
  | nil => simp
  | cons c s ih =>
    by_cases hc : c = '/'
    · right; exact ⟨s, by simp [hc]⟩
    · rw [dropWhile_cons_ne c s hc]
      exact ih

/-- For a request whose escaped path begins with a slash and unescapes to its path, the
first segment the router sees is `key`, with nothing after it, exactly when the path is
`/` followed by `key`. -/
theorem firstSegment_iff (s P : List Char) (key : String)
    (hesc : url.PathUnescape ('/' :: s) = .ok P)
    (hk0 : key ≠ "") (hk : '/' ∉ key.data) :
    ((firstSegment ('/' :: s)).1 = key ∧ (firstSegment ('/' :: s)).2 = [])
      ↔ P = '/' :: key.data := by
  have hchk : url.checkEscapes s = none ∧ P = '/' :: url.decodePathEscapes s := by
    unfold url.PathUnescape at hesc
    have e1 : url.checkEscapes ('/' :: s) = url.checkEscapes s :=
      checkEscapes_cons '/' s (by decide)
    have e2 : url.decodePathEscapes ('/' :: s) = '/' :: url.decodePathEscapes s :=
      decodePathEscapes_cons '/' s (by decide)
    rw [e1, e2] at hesc
    cases hcs : url.checkEscapes s with
    | none =>
      rw [hcs] at hesc
      exact ⟨rfl, (Except.ok.inj hesc).symm⟩
    | some bad =>
      rw [hcs] at hesc
      cases hesc
  obtain ⟨hcs, hP⟩ := hchk
  have hkd : key.data ≠ [] := fun e => hk0 (String.ext e)
  by_cases hs : s = []
  · subst hs
    have hfs : firstSegment ['/'] = ("/", []) := rfl
    rw [hfs, hP]
    constructor
    · rintro ⟨h1, _⟩
      rw [← h1] at hk
      exact absurd (by decide) hk
    · intro h
      have : url.decodePathEscapes [] = key.data := List.tail_eq_of_cons_eq h
      exact absurd this.symm hkd
  · obtain ⟨i1, i2⟩ := unescape_split s.length s (Nat.le_refl _) hcs
    have hne : '/' :: s ≠ ['/'] := by simpa using hs
    have hfs : firstSegment ('/' :: s)
        = (String.mk (url.decodePathEscapes (s.takeWhile (· ≠ '/'))),
            s.dropWhile (· ≠ '/')) := by
      simp only [firstSegment, hne, if_false, List.drop_succ_cons, List.drop_zero,
        pathUnescape, url.PathUnescape, i1]
    rw [hfs, hP]
    constructor
    · rintro ⟨h1, h2⟩
      have h1' : String.mk (url.decodePathEscapes (s.takeWhile (· ≠ '/'))) = key := h1
      have h2' : s.dropWhile (· ≠ '/') = [] := h2
      rw [i2, h2', ← h1']
      simp [url.decodePathEscapes]
    · intro h
      have hd : url.decodePathEscapes s = key.data := List.tail_eq_of_cons_eq h
      rcases dropWhile_slash s with h0 | ⟨t, ht⟩
      · simp only
        refine ⟨?_, h0⟩
        rw [i2, h0] at hd
        exact String.ext (by simpa [url.decodePathEscapes] using hd)
      · rw [i2, ht] at hd
        have : '/' ∈ key.data := by
          rw [← hd, decodePathEscapes_cons '/' t (by decide)]
          exact List.mem_append_right _ (List.mem_cons_self _ _)
        exact absurd this hk

/-- The router of `main` by path: for a request whose escaped path unescapes to its path
and is in cleaned form (for a CONNECT request it is enough that it begins with a slash),
`/form` goes to `formHandler`, `/hello` to `helloHandler`, any other path to the file
server. -/
theorem findHandler_by_path (r : Request) (s : List Char)
    (hd : r.URL.EscapedPath.data = '/' :: s)
    (hesc : url.PathUnescape r.URL.EscapedPath.data = .ok r.URL.Path.data)
    (hc : r.Method ≠ "CONNECT" → cleanPath r.URL.EscapedPath = r.URL.EscapedPath) :
    main.mux.findHandler r
      = if r.URL.Path = "/form" then .formHandler
        else if r.URL.Path = "/hello" then .helloHandler
        else .fileServer := by
  rw [findHandler_main r s hd hc]
  rw [hd] at hesc
  have h1 := firstSegment_iff s r.URL.Path.data "form" hesc (by decide) (by decide)
  have h2 := firstSegment_iff s r.URL.Path.data "hello" hesc (by decide) (by decide)
  have e1 : r.URL.Path.data = '/' :: "form".data ↔ r.URL.Path = "/form" :=
    ⟨fun h => String.ext h, fun h => by rw [h]⟩
  have e2 : r.URL.Path.data = '/' :: "hello".data ↔ r.URL.Path = "/hello" :=
    ⟨fun h => String.ext h, fun h => by rw [h]⟩
  simp only [h1, h2, e1, e2]

/-! ### Cleaned paths begin with a slash -/

theorem backtrack_ge (out : List Char) (dotdot : Nat) :
    ∀ w, dotdot ≤ w → dotdot ≤ path.backtrack out dotdot w := by
  intro w
  induction w with
  | zero => intro h; simpa [path.backtrack] using h
  | succ w ih =>
    intro h
    unfold path.backtrack
    split
    · rename_i hc
      exact ih (by omega)
    · exact h

theorem head_take (out : List Char) (k : Nat) (hk : 1 ≤ k) : (out.take k).head? = out.head? := by
  cases out with
  | nil => simp
  | cons c out =>
    cases k with
    | zero => omega
    | succ k => simp

theorem head_append (out : List Char) (c : Char) (b : List Char) (h : out.head? = some c) :
    (out ++ b).head? = some c := by
  cases out with
  | nil => simp at h
  | cons d out => simpa using h

theorem cleanLoop_head (rest : List Char) :
    ∀ (mode : path.Mode) (out : List Char), out.head? = some '/' →
      (path.cleanLoop true rest mode out 1).head? = some '/' := by
  induction rest with
  | nil => intro mode out h; simpa [path.cleanLoop] using h
  | cons c rest ih =>
    intro mode out h
    cases mode with
    | skip => simpa [path.cleanLoop] using ih _ out h
    | inElem =>
      unfold path.cleanLoop
      split
      · exact ih _ out h
      · exact ih _ _ (head_append out '/' [c] h)
    | boundary =>
      unfold path.cleanLoop
      split
      · exact ih _ out h
      · split
        · exact ih _ out h
        · split
          · split
            · rename_i hlen
              refine ih _ _ ?_
              rw [head_take out _ (backtrack_ge out 1 _ (by omega))]
              exact h
            · split
              · rename_i hr
                exact absurd rfl hr
              · exact ih _ out h
          · refine ih _ _ (head_append _ '/' [c] ?_)
            split
            · exact head_append out '/' ['/'] h
            · exact h

theorem Clean_head (rest : List Char) : (path.Clean ('/' :: rest)).head? = some '/' := by
  have h := cleanLoop_head rest .boundary ['/'] rfl
  unfold path.Clean
  simp only [if_true]
  split
  · rename_i h0
    rw [List.length_eq_zero.mp h0] at h
    simp at h
  · exact h

theorem cleanPath_head (p : String) : (cleanPath p).data.head? = some '/' := by
  unfold cleanPath
  split
  · rfl
  · have hp1 : ∃ rest, (if p.data.head? ≠ some '/' then '/' :: p.data else p.data) = '/' :: rest := by
      split
      · exact ⟨p.data, rfl⟩
      · rename_i hh
        cases hd : p.data with
        | nil => simp [hd] at hh
        | cons c rest =>
          simp [hd] at hh
          exact ⟨rest, by rw [hh]⟩
    obtain ⟨rest, hrest⟩ := hp1
    simp only [hrest]
    split
    · split
      · rfl
      · exact head_append _ '/' ['/'] (Clean_head rest)
    · exact Clean_head rest

/-! ### The file server -/

theorem Clean_of_cleanPath (q : String) (hc : cleanPath q = q)
    (hs : q.data.getLast? ≠ some '/') : path.Clean q.data = q.data := by
  have hhead : q.data.head? = some '/' := by
    have := cleanPath_head q
    rwa [hc] at this
  have hne : q ≠ "" := by
    intro e
    subst e
    simp at hhead
  have h := hc
  unfold cleanPath at h
  simp only [hne, if_false, hhead, ne_eq, not_true_eq_false, hs, false_and] at h
  exact congrArg String.data h

theorem ParseForm_Form_isSome (r : Request) : r.ParseForm.1.Form.isSome = true := by
  unfold Request.ParseForm
  cases hF : r.Form <;> simp [hF]

/-- No request reaches `helloHandler` through the router of `main` with a path other than
`/hello`. -/
theorem findHandler_hello (r : Request)
    (hesc : url.PathUnescape r.URL.EscapedPath.data = .ok r.URL.Path.data)
    (hwf : r.URL.EscapedPath = "" ∨ r.URL.EscapedPath.data.head? = some '/')
    (h : main.mux.findHandler r = .helloHandler) : r.URL.Path = "/hello" := by
  have fromPath : ∀ s, r.URL.EscapedPath.data = '/' :: s →
      (r.Method ≠ "CONNECT" → cleanPath r.URL.EscapedPath = r.URL.EscapedPath) →
      r.URL.Path = "/hello" := by
    intro s hd hc
    rw [findHandler_by_path r s hd hesc hc] at h
    by_contra hne
    by_cases hf : r.URL.Path = "/form"
    · simp [hf] at h
    · simp [hf, hne] at h
  by_cases hm : r.Method = "CONNECT"
  · rcases hwf with h0 | h1
    · exfalso
      have hd0 : r.URL.EscapedPath.data = [] := by rw [h0]
      have hs : ("" ++ "/" : String).data = ['/'] := rfl
      have hroot : main.mux.tree.match r.Host r.Method ['/'] = some main.rootLeaf := by
        rw [match_main]
        rfl
      have hex : exactMatch (some main.rootLeaf) ['/'] = true := rfl
      unfold ServeMux.findHandler at h
      simp only [hm, if_true, ServeMux.matchOrRedirect, h0] at h
      have hd1 : ("" : String).data = [] := rfl
      simp only [hd1, match_main_nil, exactMatch, hs] at h
      rw [← hm] at h
      simp [hroot, main.rootLeaf, routingNode.pattern, pattern.lastSegment] at h
    · cases hd : r.URL.EscapedPath.data with
      | nil => simp [hd] at h1
      | cons c s =>
        have hc : c = '/' := by simpa [hd] using h1
        subst hc
        exact fromPath s hd (fun hn => absurd hm hn)
  · by_cases hcl : cleanPath r.URL.EscapedPath = r.URL.EscapedPath
    · have hh := cleanPath_head r.URL.EscapedPath
      rw [hcl] at hh
      cases hd : r.URL.EscapedPath.data with
      | nil => simp [hd] at hh
      | cons c s =>
        have hc : c = '/' := by simpa [hd] using hh
        subst hc
        exact fromPath s hd (fun _ => hcl)
    · exfalso
      have hh := cleanPath_head r.URL.EscapedPath
      cases hd : (cleanPath r.URL.EscapedPath).data with
      | nil => simp [hd] at hh
      | cons c s =>
        have hc : c = '/' := by simpa [hd] using hh
        subst hc
        unfold ServeMux.findHandler at h
        simp only [hm, if_false, matchOrRedirect_main _ _ _ _ s hd, ne_eq, hcl,
          not_false_eq_true, if_true] at h
        exact absurd h (by simp)

theorem fileServer_index (fs : FileSystem) (r : Request)
    (h : "/index.html".data.isSuffixOf r.URL.Path.data = true) :
    fileServer fs .fresh r = { wroteHeader := true, Code := 301, Body := "" } := by
  have hs : "/index.html".data <:+ r.URL.Path.data := List.isSuffixOf_iff_suffix.mp h
  have hs2 : "/index.html".data.isSuffixOf ("/" ++ r.URL.Path).data = true := by
    apply List.isSuffixOf_iff_suffix.mpr
    have e : ("/" ++ r.URL.Path).data = '/' :: r.URL.Path.data := by
      simp [String.data_append]
    rw [e]
    exact hs.trans (List.suffix_cons _ _)
  unfold fileServer
  by_cases hh : r.URL.Path.data.head? = some '/'
  · simp only [hh, ne_eq, not_true_eq_false, if_false, serveFile, h, if_true]
    rfl
  · simp only [hh, ne_eq, not_false_eq_true, if_true, serveFile, hs2]
    rfl

theorem fileServer_file (fs : FileSystem) (r : Request) (c : String)
    (hm : r.Method = "GET") (hclean : cleanPath r.URL.Path = r.URL.Path)
    (hlast : r.URL.Path.data.getLast? ≠ some '/')
    (hindex : "/index.html".data.isSuffixOf r.URL.Path.data = false)
    (hfile : fs r.URL.Path = .ok (.file c)) :
    fileServer fs .fresh r = { wroteHeader := true, Code := 200, Body := c } := by
  have hhead : r.URL.Path.data.head? = some '/' := by
    have := cleanPath_head r.URL.Path
    rwa [hclean] at this
  have hC := Clean_of_cleanPath r.URL.Path hclean hlast
  have hmh : r.Method ≠ "HEAD" := by rw [hm]; decide
  have hname : String.mk r.URL.Path.data = r.URL.Path := rfl
  simp only [fileServer, hhead, ne_eq, not_true_eq_false, if_false, serveFile, hindex, hC,
    hname, hfile, Node.IsDir, hlast, Bool.false_eq_true, and_false, false_and, and_true,
    not_false_eq_true, serveContent, hmh, if_true]
  simp [ResponseWriter.Write, ResponseWriter.WriteHeader, ResponseWriter.fresh, http.StatusOK]

/-! # The claims -/

/-- C1. For a request whose path is exactly `/hello` and whose method is exactly `GET`,
`helloHandler` answers with status 200 and the body `Hello!`: these six bytes and nothing
before or after them. -/
theorem helloHandler_greeting (r : Request) (hp : r.URL.Path = "/hello")
    (hm : r.Method = "GET") :
    helloHandler .fresh r = some { wroteHeader := true, Code := 200, Body := "Hello!" }
      ∧ "Hello!".length = 6 :=
  ⟨helloHandler_get r hp hm, rfl⟩

theorem helloHandler_greeting_witness :
    (NewRequest "GET" "/hello" "" "application/octet-stream" "").URL.Path = "/hello"
      ∧ (NewRequest "GET" "/hello" "" "application/octet-stream" "").Method = "GET"
      ∧ (helloHandler .fresh (NewRequest "GET" "/hello" "" "application/octet-stream" "")
          = some { wroteHeader := true, Code := 200, Body := "Hello!" }
        ∧ "Hello!".length = 6) :=
  ⟨rfl, rfl, helloHandler_greeting _ rfl rfl⟩

/-- C2, as the spec states it, fails: for `POST /hello` the body is not exactly
`Method is not supported.`; `http.Error` ends the message with a newline. -/
theorem helloHandler_method_body_counterexample :
    helloHandler .fresh (NewRequest "POST" "/hello" "" "application/octet-stream" "")
        = some { wroteHeader := true, Code := 404, Body := "Method is not supported.\n" }
      ∧ (helloHandler .fresh (NewRequest "POST" "/hello" "" "application/octet-stream" "")).map
          (fun w => w.Body) ≠ some "Method is not supported." := by
  decide

/-- C2, amended. For a request whose path is exactly `/hello` and whose method is any
string other than `GET`, `helloHandler` answers with status 404 and the body
`Method is not supported.` followed by one newline, as `http.Error` writes it. -/
theorem helloHandler_method_not_supported (r : Request) (hp : r.URL.Path = "/hello")
    (hm : r.Method ≠ "GET") :
    helloHandler .fresh r
      = some { wroteHeader := true, Code := 404, Body := "Method is not supported.\n" } :=
  helloHandler_method r hp hm

theorem helloHandler_method_not_supported_witness :
    (NewRequest "POST" "/hello" "" "application/octet-stream" "").URL.Path = "/hello"
      ∧ (NewRequest "POST" "/hello" "" "application/octet-stream" "").Method ≠ "GET"
      ∧ helloHandler .fresh (NewRequest "POST" "/hello" "" "application/octet-stream" "")
          = some { wroteHeader := true, Code := 404, Body := "Method is not supported.\n" } :=
  ⟨rfl, by decide, helloHandler_method_not_supported _ rfl (by decide)⟩

/-- C7, as the spec states it, fails: for `GET /x` the body is not `404 not found.`;
`http.Error` ends the message with a newline. -/
theorem helloHandler_path_body_counterexample :
    helloHandler .fresh (NewRequest "GET" "/x" "" "application/octet-stream" "")
        = some { wroteHeader := true, Code := 404, Body := "404 not found.\n" }
      ∧ (helloHandler .fresh (NewRequest "GET" "/x" "" "application/octet-stream" "")).map
          (fun w => w.Body) ≠ some "404 not found." := by
  decide

/-- C7, amended. `helloHandler` tests the path before the method: for a request whose path
is not exactly `/hello`, whatever its method, the answer has status 404 and the body
`404 not found.` followed by one newline, and is neither the greeting nor the answer to a
wrong method; and the answer to a wrong method on `/hello` has the same status 404. -/
theorem helloHandler_path_first (r : Request) (hp : r.URL.Path ≠ "/hello") :
    helloHandler .fresh r
        = some { wroteHeader := true, Code := 404, Body := "404 not found.\n" }
      ∧ (helloHandler .fresh r).map (fun w => w.Body) ≠ some "Hello!"
      ∧ (helloHandler .fresh r).map (fun w => w.Body) ≠ some "Method is not supported.\n"
      ∧ ∀ r2 : Request, r2.URL.Path = "/hello" → r2.Method ≠ "GET" →
          (helloHandler .fresh r2).map (fun w => w.Code) = some 404
            ∧ (helloHandler .fresh r2).map (fun w => w.Code)
                = (helloHandler .fresh r).map (fun w => w.Code) := by
  have h := helloHandler_path r hp
  refine ⟨h, ?_, ?_, ?_⟩
  · rw [h]; decide
  · rw [h]; decide
  · intro r2 hp2 hm2
    rw [h, helloHandler_method r2 hp2 hm2]
    exact ⟨rfl, rfl⟩

theorem helloHandler_path_first_witness :
    (NewRequest "GET" "/hello/x" "" "application/octet-stream" "").URL.Path ≠ "/hello"
      ∧ helloHandler .fresh (NewRequest "GET" "/hello/x" "" "application/octet-stream" "")
          = some { wroteHeader := true, Code := 404, Body := "404 not found.\n" } :=
  ⟨by decide, (helloHandler_path_first _ (by decide)).1⟩

/-- C4. When parsing the form fails with the error `e`, `formHandler` leaves the status at
200 and writes `ParseForm() err: ` followed by the text of `e`, which is not empty, and
nothing else. -/
theorem formHandler_parse_failure (Quote : String → String) (r : Request) (e : GoError)
    (h : r.ParseForm.2 = some e) :
    formHandler Quote .fresh r = some
        { wroteHeader := true, Code := 200, Body := "ParseForm() err: " ++ e.Error Quote }
      ∧ e.Error Quote ≠ "" :=
  ⟨formHandler_err Quote r e h, GoError.Error_ne_empty Quote e⟩

theorem formHandler_parse_failure_witness :
    (NewRequest "POST" "/form" "" "application/x-www-form-urlencoded"
        "name=%zz&address=x").ParseForm.2 = some (.EscapeError "%zz")
      ∧ formHandler quoteAscii .fresh (NewRequest "POST" "/form" ""
            "application/x-www-form-urlencoded" "name=%zz&address=x")
          = some { wroteHeader := true, Code := 200,
                   Body := "ParseForm() err: invalid URL escape \"%zz\"" } :=
  ⟨by decide, (formHandler_parse_failure quoteAscii _ (.EscapeError "%zz") (by decide)).1⟩

/-- C5. When parsing the form succeeds, `formHandler` answers with status 200, the success
line and both field lines, whatever fields the form has: a field that is absent from the
form gives the line `Name = ` (or `Address = `) with nothing after the space, never an
error. -/
theorem formHandler_missing_field (Quote : String → String) (r : Request)
    (h : r.ParseForm.2 = none) :
    formHandler Quote .fresh r = some
        { wroteHeader := true, Code := 200,
          Body := "POST request successful\n"
            ++ ("Name = " ++ r.ParseForm.1.FormValue "name" ++ "\n")
            ++ ("Address = " ++ r.ParseForm.1.FormValue "address" ++ "\n") }
      ∧ r.ParseForm.1.Form.isSome = true
      ∧ (∀ f, r.ParseForm.1.Form = some f → (∀ vs, ("name", vs) ∉ f) →
          formHandler Quote .fresh r = some
            { wroteHeader := true, Code := 200,
              Body := "POST request successful\n" ++ "Name = \n"
                ++ ("Address = " ++ r.ParseForm.1.FormValue "address" ++ "\n") })
      ∧ (∀ f, r.ParseForm.1.Form = some f → (∀ vs, ("address", vs) ∉ f) →
          formHandler Quote .fresh r = some
            { wroteHeader := true, Code := 200,
              Body := "POST request successful\n"
                ++ ("Name = " ++ r.ParseForm.1.FormValue "name" ++ "\n")
                ++ "Address = \n" }) := by
  have hok := formHandler_ok Quote r h
  refine ⟨hok, ParseForm_Form_isSome r, ?_, ?_⟩
  · intro f hf habs
    rw [hok, FormValue_absent _ f "name" hf habs]
    rfl
  · intro f hf habs
    rw [hok, FormValue_absent _ f "address" hf habs]
    rfl

theorem formHandler_missing_field_witness :
    (NewRequest "POST" "/form" "" "application/x-www-form-urlencoded"
        "address=x").ParseForm.2 = none
      ∧ formHandler quoteAscii .fresh (NewRequest "POST" "/form" ""
            "application/x-www-form-urlencoded" "address=x")
          = some { wroteHeader := true, Code := 200,
                   Body := "POST request successful\nName = \nAddress = x\n" } :=
  ⟨by decide, (formHandler_missing_field quoteAscii _ (by decide)).1⟩

/-- C10. When parsing the form succeeds, the body `formHandler` writes is exactly
`POST request successful\n`, `Name = `, n, `\n`, `Address = `, a, `\n` in a row, where n
and a are the first values of `name` and `address` in the parsed form.  The values are
copied as they are, for every n and a, a `%` in them included; a newline in one of them
gives the body more than three lines. -/
theorem formHandler_echo_verbatim (Quote : String → String) (r : Request)
    (h : r.ParseForm.2 = none) :
    formHandler Quote .fresh r = some
        { wroteHeader := true, Code := 200,
          Body := "POST request successful\n" ++ "Name = " ++ r.ParseForm.1.FormValue "name"
            ++ "\n" ++ "Address = " ++ r.ParseForm.1.FormValue "address" ++ "\n" }
      ∧ (∀ f v vs, r.ParseForm.1.Form = some f → url.Values.lookup f "name" = v :: vs →
          r.ParseForm.1.FormValue "name" = v)
      ∧ (∀ f v vs, r.ParseForm.1.Form = some f → url.Values.lookup f "address" = v :: vs →
          r.ParseForm.1.FormValue "address" = v)
      ∧ (('\n' ∈ (r.ParseForm.1.FormValue "name").data
            ∨ '\n' ∈ (r.ParseForm.1.FormValue "address").data) →
          3 < (lines ("POST request successful\n" ++ "Name = "
            ++ r.ParseForm.1.FormValue "name" ++ "\n" ++ "Address = "
            ++ r.ParseForm.1.FormValue "address" ++ "\n")).length)
      ∧ (∀ n a : String, formHandler Quote .fresh (parsedRequest n a) = some
          { wroteHeader := true, Code := 200,
            Body := "POST request successful\n" ++ "Name = " ++ n ++ "\n" ++ "Address = "
              ++ a ++ "\n" }) := by
  have e : ∀ n a : String, "POST request successful\n" ++ "Name = " ++ n ++ "\n"
      ++ "Address = " ++ a ++ "\n"
      = "POST request successful\n" ++ ("Name = " ++ n ++ "\n") ++ ("Address = " ++ a ++ "\n") := by
    intro n a
    simp only [String.append_assoc]
  refine ⟨?_, ?_, ?_, ?_, ?_⟩
  · rw [e]; exact formHandler_ok Quote r h
  · intro f v vs hf hv
    exact FormValue_of_Form _ f "name" v vs hf hv
  · intro f v vs hf hv
    exact FormValue_of_Form _ f "address" v vs hf hv
  · intro hnl
    rw [e]
    exact lines_success_gt _ _ hnl
  · intro n a
    have hp : (parsedRequest n a).ParseForm.2 = none := rfl
    have hn : (parsedRequest n a).ParseForm.1.FormValue "name" = n := rfl
    have ha : (parsedRequest n a).ParseForm.1.FormValue "address" = a := by
      simp [Request.FormValue, Request.ParseForm, parsedRequest, url.Values.lookup]
    rw [e, formHandler_ok Quote _ hp, hn, ha]

theorem formHandler_echo_verbatim_witness :
    (NewRequest "POST" "/form" "" "application/x-www-form-urlencoded"
        "name=%25s%25d&address=x%0Ay").ParseForm.2 = none
      ∧ formHandler quoteAscii .fresh (NewRequest "POST" "/form" ""
            "application/x-www-form-urlencoded" "name=%25s%25d&address=x%0Ay")
          = some { wroteHeader := true, Code := 200,
                   Body := "POST request successful\nName = %s%d\nAddress = x\ny\n" }
      ∧ 3 < (lines "POST request successful\nName = %s%d\nAddress = x\ny\n").length :=
  have h := formHandler_echo_verbatim quoteAscii
    (NewRequest "POST" "/form" "" "application/x-www-form-urlencoded"
      "name=%25s%25d&address=x%0Ay") (by decide)
  ⟨by decide, h.1, h.2.2.2.1 (by decide)⟩

/-- C8, as the spec states it, fails: the path `/a//b` is neither `/form` nor `/hello`, yet
the router does not hand the request to the file server; it answers itself, with a
redirect to the cleaned path `/a/b`. -/
theorem dispatch_unclean_counterexample :
    main.dispatch (NewRequest "GET" "/a//b" "" "application/octet-stream" "")
        = some (.serve (.RedirectHandler "/a/b" ""))
      ∧ main.dispatch (NewRequest "GET" "/a//b" "" "application/octet-stream" "")
        ≠ some (.serve .fileServer) := by
  decide

/-- C8, amended. With the three registrations of `main`, a request (its target not `*`)
whose escaped path is already in the cleaned form the router computes (it begins with a
slash and has no empty, `.` or `..` element) and unescapes to its path goes to exactly
one handler: path `/form` to `formHandler`, path `/hello` to `helloHandler`, every other
such path to the file server.  No request whose escaped path unescapes to its path, and
is empty or begins with a slash, reaches `helloHandler` with a path other than
`/hello`. -/
theorem dispatch_by_path (r : Request) (huri : r.RequestURI ≠ "*")
    (hesc : url.PathUnescape r.URL.EscapedPath.data = .ok r.URL.Path.data)
    (hclean : cleanPath r.URL.EscapedPath = r.URL.EscapedPath) :
    main.dispatch r
        = some (.serve (if r.URL.Path = "/form" then .formHandler
                        else if r.URL.Path = "/hello" then .helloHandler
                        else .fileServer))
      ∧ (∀ r2 : Request,
          url.PathUnescape r2.URL.EscapedPath.data = .ok r2.URL.Path.data →
          (r2.URL.EscapedPath = "" ∨ r2.URL.EscapedPath.data.head? = some '/') →
          main.dispatch r2 = some (.serve .helloHandler) →
          r2.URL.Path = "/hello") := by
  constructor
  · have hh := cleanPath_head r.URL.EscapedPath
    rw [hclean] at hh
    cases hd : r.URL.EscapedPath.data with
    | nil => simp [hd] at hh
    | cons c s =>
      have hc : c = '/' := by simpa [hd] using hh
      subst hc
      rw [dispatch_eq, ServeMux.ServeHTTP, if_neg huri,
        findHandler_by_path r s hd hesc (fun _ => hclean)]
  · intro r2 hesc2 hwf2 hd
    rw [dispatch_eq, ServeMux.ServeHTTP] at hd
    by_cases hu : r2.RequestURI = "*"
    · simp [hu] at hd
    · rw [if_neg hu] at hd
      exact findHandler_hello r2 hesc2 hwf2 (Routed.serve.inj (Option.some.inj hd))

theorem dispatch_by_path_witness :
    main.dispatch (NewRequest "GET" "/hello/x" "" "application/octet-stream" "")
        = some (.serve .fileServer)
      ∧ main.dispatch (NewRequest "POST" "/formx" "" "application/octet-stream" "")
        = some (.serve .fileServer)
      ∧ main.dispatch (NewRequest "POST" "/form" "" "application/octet-stream" "")
        = some (.serve .formHandler)
      ∧ main.dispatch (NewRequest "GET" "/hello" "" "application/octet-stream" "")
        = some (.serve .helloHandler) :=
  ⟨(dispatch_by_path (NewRequest "GET" "/hello/x" "" "application/octet-stream" "")
    (by decide) rfl (by decide)).1,
   (dispatch_by_path (NewRequest "POST" "/formx" "" "application/octet-stream" "")
    (by decide) rfl (by decide)).1,
   (dispatch_by_path (NewRequest "POST" "/form" "" "application/octet-stream" "")
    (by decide) rfl (by decide)).1,
   (dispatch_by_path (NewRequest "GET" "/hello" "" "application/octet-stream" "")
    (by decide) rfl (by decide)).1⟩

/-- C9, as the spec states it, fails: the file `index.html` exists under the static root,
and `GET /index.html` goes to the file server, which answers with status 301 and no
body, not with status 200 and the bytes of the file. -/
theorem fileServer_index_counterexample :
    staticFiles "/index.html" = .ok (.file "<h1>Static</h1>")
      ∧ main.dispatch (NewRequest "GET" "/index.html" "" "application/octet-stream" "")
          = some (.serve .fileServer)
      ∧ fileServer staticFiles .fresh
          (NewRequest "GET" "/index.html" "" "application/octet-stream" "")
          = { wroteHeader := true, Code := 301, Body := "" } :=
  ⟨rfl, rfl, rfl⟩

/-- C9, amended. For a regular file that the static root opens under the name `"/" + p`
(it exists and can be read), where `"/" + p` is in cleaned form (no empty, `.` or `..`
element, no slash at the end), is not `/form` or `/hello`, and does not end in
`/index.html`, a GET request (its target not `*`, without `Range` and conditional header
fields) with the path `"/" + p`, whose escaped path is in cleaned form and unescapes to
that path, goes to the file server and gets status 200 and a body equal, byte for byte,
to the contents of the file.  A request with a path that ends in `/index.html` gets from
the file server status 301 and no body. -/
theorem fileServer_serves_file (fs : FileSystem) (r : Request) (p c : String)
    (hm : r.Method = "GET") (huri : r.RequestURI ≠ "*") (hp : r.URL.Path = "/" ++ p)
    (hesc : url.PathUnescape r.URL.EscapedPath.data = .ok r.URL.Path.data)
    (hcleanE : cleanPath r.URL.EscapedPath = r.URL.EscapedPath)
    (hclean : cleanPath ("/" ++ p) = "/" ++ p)
    (hlast : ("/" ++ p).data.getLast? ≠ some '/')
    (hform : "/" ++ p ≠ "/form") (hhello : "/" ++ p ≠ "/hello")
    (hindex : "/index.html".data.isSuffixOf ("/" ++ p).data = false)
    (hfile : fs ("/" ++ p) = .ok (.file c)) :
    main.dispatch r = some (.serve .fileServer)
      ∧ fileServer fs .fresh r = { wroteHeader := true, Code := 200, Body := c }
      ∧ (∀ r2 : Request, "/index.html".data.isSuffixOf r2.URL.Path.data = true →
          fileServer fs .fresh r2 = { wroteHeader := true, Code := 301, Body := "" }) := by
  rw [← hp] at hclean hlast hform hhello hindex hfile
  have hh := cleanPath_head r.URL.EscapedPath
  rw [hcleanE] at hh
  refine ⟨?_, fileServer_file fs r c hm hclean hlast hindex hfile,
    fun r2 h2 => fileServer_index fs r2 h2⟩
  cases hd : r.URL.EscapedPath.data with
  | nil => simp [hd] at hh
  | cons c0 s =>
    have hc : c0 = '/' := by simpa [hd] using hh
    subst hc
    rw [dispatch_eq, ServeMux.ServeHTTP, if_neg huri,
      findHandler_by_path r s hd hesc (fun _ => hcleanE)]
    simp [hform, hhello]

theorem fileServer_serves_file_witness :
    staticFiles ("/" ++ "a.txt") = .ok (.file "some text\n")
      ∧ main.dispatch (NewRequest "GET" "/a.txt" "" "application/octet-stream" "")
          = some (.serve .fileServer)
      ∧ fileServer staticFiles .fresh (NewRequest "GET" "/a.txt" "" "application/octet-stream" "")
          = { wroteHeader := true, Code := 200, Body := "some text\n" } :=
  have h := fileServer_serves_file staticFiles
    (NewRequest "GET" "/a.txt" "" "application/octet-stream" "") "a.txt" "some text\n"
    rfl (by decide) rfl rfl (by decide) (by decide) (by decide) (by decide) (by decide) rfl rfl
  ⟨rfl, h.1, h.2.1⟩

end BasicGoServer
